import Mathlib

/-!
Shallow embedding of the Emotion-Tree generative sketch engine
(src/services/treeSketch.ts and the mood-only variant src/unnamed/part_005),
with theorems about its event detector, signal smoother, particle store,
flower geometry and skeleton builder.

Numbers are modelled as exact rationals.  Environment functions that the
sketch obtains from p5 (Perlin noise, sin, cos, random draws) are passed in
as parameters, and the irrational constant PI is likewise a parameter, since
no property proved here depends on their values.
-/

namespace EmotionTree

/-- Rational model of p5.lerp: a + (b - a) * t. -/
def lerp (a b t : ℚ) : ℚ := a + (b - a) * t

/-- One frame of mood smoothing, treeSketch.ts line 231:
currentMood = p.lerp(currentMood, state.mood, 0.1). -/
def moodSmoothStep (s m : ℚ) : ℚ := lerp s m 0.1

/-- The smoothed-mood sequence obtained by iterating the per-frame update
against a constant target mood m from initial value s0. -/
def moodSmoothIter (s0 m : ℚ) : ℕ → ℚ
  | 0 => s0
  | n + 1 => moodSmoothStep (moodSmoothIter s0 m n) m

/-- One frame of the bloom hysteresis detector, treeSketch.ts lines 237-243.
Input: current latch `wasBlooming` and the smoothed mood for this frame.
Output: (new latch state, whether a bloom event was emitted this frame). -/
def stepBloom (wasBlooming : Bool) (m : ℚ) : Bool × Bool :=
  if ¬wasBlooming ∧ m > 0.6 then (true, true)
  else if wasBlooming ∧ m < 0.2 then (false, false)
  else (wasBlooming, false)

/-- Run the bloom detector over a list of smoothed-mood frames.
Returns the final latch state and the per-frame emission flags. -/
def runBloom : Bool → List ℚ → Bool × List Bool
  | b, [] => (b, [])
  | b, m :: ms =>
    let s := stepBloom b m
    let r := runBloom s.1 ms
    (r.1, s.2 :: r.2)

/-- One frame of the wither hysteresis detector, src/unnamed/part_005
lines 152-158: sets at mood < -0.6, clears at mood > -0.2. -/
def stepWither (wasWithering : Bool) (m : ℚ) : Bool × Bool :=
  if ¬wasWithering ∧ m < -0.6 then (true, true)
  else if wasWithering ∧ m > -0.2 then (false, false)
  else (wasWithering, false)

/-- Run the wither detector over a list of smoothed-mood frames. -/
def runWither : Bool → List ℚ → Bool × List Bool
  | b, [] => (b, [])
  | b, m :: ms =>
    let s := stepWither b m
    let r := runWither s.1 ms
    (r.1, s.2 :: r.2)

/-- One whole frame of event logic of src/unnamed/part_005 lines 143-159:
both latches are updated against the same smoothed mood. -/
def stepFrameLatches (wb ww : Bool) (m : ℚ) : Bool × Bool :=
  ((stepBloom wb m).1, (stepWither ww m).1)

/-- The pair of latches after running the frame event logic over a list of
smoothed-mood frames. -/
def runLatches (s : Bool × Bool) (ms : List ℚ) : Bool × Bool :=
  ms.foldl (fun t m => stepFrameLatches t.1 t.2 m) s

/-! ### Detector lemmas -/

lemma stepBloom_idle (m : ℚ) (h : m ≤ 0.6) : stepBloom false m = (false, false) := by
  have h1 : ¬(m > 0.6) := not_lt.mpr h
  simp [stepBloom, h1]

lemma stepBloom_fire (m : ℚ) (h : 0.6 < m) : stepBloom false m = (true, true) := by
  simp [stepBloom, h]

lemma stepBloom_hold (m : ℚ) (h : 0.2 ≤ m) : stepBloom true m = (true, false) := by
  have h1 : ¬(m < 0.2) := not_lt.mpr h
  simp [stepBloom, h1]

lemma stepBloom_clear (m : ℚ) (h : m < 0.2) : stepBloom true m = (false, false) := by
  simp [stepBloom, h]

lemma runBloom_idle (l : List ℚ) (h : ∀ x ∈ l, x ≤ 0.6) :
    runBloom false l = (false, List.replicate l.length false) := by
  induction l with
  | nil => rfl
  | cons m ms ih =>
    have hm : m ≤ 0.6 := h m (List.mem_cons_self m ms)
    simp [runBloom, stepBloom_idle m hm, ih (fun x hx => h x (List.mem_cons_of_mem m hx)),
      List.replicate_succ]

lemma runBloom_hold (l : List ℚ) (h : ∀ x ∈ l, 0.2 ≤ x) :
    runBloom true l = (true, List.replicate l.length false) := by
  induction l with
  | nil => rfl
  | cons m ms ih =>
    have hm : 0.2 ≤ m := h m (List.mem_cons_self m ms)
    simp [runBloom, stepBloom_hold m hm, ih (fun x hx => h x (List.mem_cons_of_mem m hx)),
      List.replicate_succ]

lemma runBloom_append (b : Bool) (l1 l2 : List ℚ) :
    runBloom b (l1 ++ l2) =
      ((runBloom (runBloom b l1).1 l2).1,
        (runBloom b l1).2 ++ (runBloom (runBloom b l1).1 l2).2) := by
  induction l1 generalizing b with
  | nil => simp [runBloom]
  | cons m ms ih => simp [runBloom, ih]

lemma stepWither_idle (m : ℚ) (h : -0.6 ≤ m) : stepWither false m = (false, false) := by
  have h1 : ¬(m < -0.6) := not_lt.mpr h
  simp [stepWither, h1]

lemma stepWither_fire (m : ℚ) (h : m < -0.6) : stepWither false m = (true, true) := by
  simp [stepWither, h]

lemma stepWither_hold (m : ℚ) (h : m ≤ -0.2) : stepWither true m = (true, false) := by
  have h1 : ¬(m > -0.2) := not_lt.mpr h
  simp [stepWither, h1]

lemma stepWither_clear (m : ℚ) (h : -0.2 < m) : stepWither true m = (false, false) := by
  simp [stepWither, h]

lemma runWither_idle (l : List ℚ) (h : ∀ x ∈ l, -0.6 ≤ x) :
    runWither false l = (false, List.replicate l.length false) := by
  induction l with
  | nil => rfl
  | cons m ms ih =>
    have hm : -0.6 ≤ m := h m (List.mem_cons_self m ms)
    simp [runWither, stepWither_idle m hm, ih (fun x hx => h x (List.mem_cons_of_mem m hx)),
      List.replicate_succ]

lemma runWither_hold (l : List ℚ) (h : ∀ x ∈ l, x ≤ -0.2) :
    runWither true l = (true, List.replicate l.length false) := by
  induction l with
  | nil => rfl
  | cons m ms ih =>
    have hm : m ≤ -0.2 := h m (List.mem_cons_self m ms)
    simp [runWither, stepWither_hold m hm, ih (fun x hx => h x (List.mem_cons_of_mem m hx)),
      List.replicate_succ]

lemma runWither_append (b : Bool) (l1 l2 : List ℚ) :
    runWither b (l1 ++ l2) =
      ((runWither (runWither b l1).1 l2).1,
        (runWither b l1).2 ++ (runWither (runWither b l1).1 l2).2) := by
  induction l1 generalizing b with
  | nil => simp [runWither]
  | cons m ms ih => simp [runWither, ih]

/-- C1: starting with the bloom latch clear, a smoothed-mood sequence that
stays at or below 0.6, then exceeds 0.6, then stays at or above 0.2
(including an arbitrary repeated rise hi2), then falls below 0.2, makes the
detector emit exactly one bloom event, at the first frame whose value
exceeds 0.6; no event is emitted on the repeated rise nor when the latch
clears, and the run ends with the latch clear. -/
theorem bloom_event_hysteresis
    (lo hi hi2 : List ℚ) (m1 m2 : ℚ)
    (hlo : ∀ x ∈ lo, x ≤ 0.6) (hm1 : 0.6 < m1)
    (hhi : ∀ x ∈ hi, 0.2 ≤ x) (hhi2 : ∀ x ∈ hi2, 0.2 ≤ x)
    (hm2 : m2 < 0.2) :
    runBloom false (lo ++ m1 :: (hi ++ hi2 ++ [m2])) =
      (false, List.replicate lo.length false ++
        true :: List.replicate (hi.length + hi2.length + 1) false) := by
  have hlast : runBloom true [m2] = (false, [false]) := by
    simp [runBloom, stepBloom_clear m2 hm2]
  have h2 : runBloom true (hi2 ++ [m2]) =
      (false, List.replicate hi2.length false ++ [false]) := by
    rw [runBloom_append, runBloom_hold hi2 hhi2]
    simp [hlast]
  have htail : runBloom true (hi ++ (hi2 ++ [m2])) =
      (false, List.replicate hi.length false ++ (List.replicate hi2.length false ++ [false])) := by
    rw [runBloom_append, runBloom_hold hi hhi]
    simp [h2]
  have hcons : runBloom false (m1 :: (hi ++ (hi2 ++ [m2]))) =
      (false, true :: (List.replicate hi.length false ++
        (List.replicate hi2.length false ++ [false]))) := by
    simp [runBloom, stepBloom_fire m1 hm1, htail]
  have hrep : List.replicate (hi.length + hi2.length + 1) false =
      List.replicate hi.length false ++ (List.replicate hi2.length false ++ [false]) := by
    rw [show hi.length + hi2.length + 1 = hi.length + (hi2.length + 1) by omega,
      List.replicate_add, List.replicate_add, List.replicate_one]
  rw [runBloom_append, runBloom_idle lo hlo, hrep]
  simp [hcons]

/-- C1 witness: the concrete sequence [0, 0.3] then 0.65 then [0.7, 0.5]
then the repeated rise [0.9, 0.65] then 0.1 emits a single bloom event at
index 2. -/
theorem bloom_event_hysteresis_witness :
    ((∀ x ∈ [(0 : ℚ), 0.3], x ≤ 0.6) ∧ (0.6 : ℚ) < 0.65 ∧
      (∀ x ∈ [(0.7 : ℚ), 0.5], 0.2 ≤ x) ∧ (∀ x ∈ [(0.9 : ℚ), 0.65], 0.2 ≤ x) ∧
      (0.1 : ℚ) < 0.2) ∧
    runBloom false ([0, 0.3] ++ 0.65 :: ([0.7, 0.5] ++ [0.9, 0.65] ++ [0.1])) =
      (false, List.replicate 2 false ++ true :: List.replicate 5 false) :=
  ⟨⟨by norm_num, by norm_num, by norm_num, by norm_num, by norm_num⟩,
    bloom_event_hysteresis [0, 0.3] [0.7, 0.5] [0.9, 0.65] 0.65 0.1
      (by norm_num) (by norm_num) (by norm_num) (by norm_num) (by norm_num)⟩

/-- C8: starting with the wither latch clear, a smoothed-mood sequence that
stays at or above -0.6, then drops below -0.6, then stays at or below -0.2
(during which no further event fires, even on renewed dips below -0.6), then
rises above -0.2, makes the detector emit exactly one wither event, at the
first frame whose value falls below -0.6; no event is emitted when the
latch clears, and the run ends with the latch clear. -/
theorem wither_event_hysteresis
    (lo hi : List ℚ) (m1 m2 : ℚ)
    (hlo : ∀ x ∈ lo, -0.6 ≤ x) (hm1 : m1 < -0.6)
    (hhi : ∀ x ∈ hi, x ≤ -0.2) (hm2 : -0.2 < m2) :
    runWither false (lo ++ m1 :: (hi ++ [m2])) =
      (false, List.replicate lo.length false ++
        true :: List.replicate (hi.length + 1) false) := by
  have hlast : runWither true [m2] = (false, [false]) := by
    simp [runWither, stepWither_clear m2 hm2]
  have htail : runWither true (hi ++ [m2]) =
      (false, List.replicate hi.length false ++ [false]) := by
    rw [runWither_append, runWither_hold hi hhi]
    simp [hlast]
  have hcons : runWither false (m1 :: (hi ++ [m2])) =
      (false, true :: (List.replicate hi.length false ++ [false])) := by
    simp [runWither, stepWither_fire m1 hm1, htail]
  have hrep : List.replicate (hi.length + 1) false =
      List.replicate hi.length false ++ [false] := by
    rw [List.replicate_add, List.replicate_one]
  rw [runWither_append, runWither_idle lo hlo, hrep]
  simp [hcons]

/-- C8 witness: the concrete sequence [0, -0.5] then -0.7 then
[-0.3, -0.9, -0.25] then 0 emits a single wither event at index 2. -/
theorem wither_event_hysteresis_witness :
    ((∀ x ∈ [(0 : ℚ), -0.5], -0.6 ≤ x) ∧ (-0.7 : ℚ) < -0.6 ∧
      (∀ x ∈ [(-0.3 : ℚ), -0.9, -0.25], x ≤ -0.2) ∧ (-0.2 : ℚ) < 0) ∧
    runWither false ([0, -0.5] ++ -0.7 :: ([-0.3, -0.9, -0.25] ++ [0])) =
      (false, List.replicate 2 false ++ true :: List.replicate 4 false) :=
  ⟨⟨by norm_num, by norm_num, by norm_num, by norm_num⟩,
    wither_event_hysteresis [0, -0.5] [-0.3, -0.9, -0.25] (-0.7) 0
      (by norm_num) (by norm_num) (by norm_num) (by norm_num)⟩

lemma stepFrameLatches_not_both (wb ww : Bool) (m : ℚ)
    (h : ¬(wb = true ∧ ww = true)) :
    ¬((stepFrameLatches wb ww m).1 = true ∧ (stepFrameLatches wb ww m).2 = true) := by
  rcases wb with _ | _ <;> rcases ww with _ | _
  · -- both clear: setting both would need m > 0.6 and m < -0.6
    intro hc
    simp only [stepFrameLatches, stepBloom, stepWither] at hc
    rcases hc with ⟨h1, h2⟩
    split_ifs at h1 h2 <;> simp_all <;> linarith
  · -- wither set, bloom clear: bloom needs m > 0.6, which clears wither
    intro hc
    simp only [stepFrameLatches, stepBloom, stepWither] at hc
    rcases hc with ⟨h1, h2⟩
    split_ifs at h1 h2 <;> simp_all <;> linarith
  · -- bloom set, wither clear: wither needs m < -0.6, which clears bloom
    intro hc
    simp only [stepFrameLatches, stepBloom, stepWither] at hc
    rcases hc with ⟨h1, h2⟩
    split_ifs at h1 h2 <;> simp_all <;> linarith
  · exact absurd ⟨rfl, rfl⟩ h

/-- C9: for every sequence of smoothed-mood frames, the bloom latch and the
wither latch of the mood-only variant are never both set at the end of a
frame. -/
theorem latches_mutually_exclusive (ms : List ℚ) :
    ¬((runLatches (false, false) ms).1 = true ∧ (runLatches (false, false) ms).2 = true) := by
  suffices h : ∀ s : Bool × Bool, ¬(s.1 = true ∧ s.2 = true) →
      ¬((runLatches s ms).1 = true ∧ (runLatches s ms).2 = true) by
    exact h (false, false) (by simp)
  induction ms with
  | nil => intro s hs; exact hs
  | cons m ms ih =>
    intro s hs
    have hstep := stepFrameLatches_not_both s.1 s.2 m hs
    exact ih (stepFrameLatches s.1 s.2 m) hstep

/-! ### Mood smoother (C4) -/

lemma moodSmoothIter_closed (s0 m : ℚ) (n : ℕ) :
    moodSmoothIter s0 m n - m = (9 / 10) ^ n * (s0 - m) := by
  induction n with
  | zero => simp [moodSmoothIter]
  | succ n ih =>
    have h : moodSmoothIter s0 m (n + 1) - m = (9 / 10) * (moodSmoothIter s0 m n - m) := by
      simp only [moodSmoothIter, moodSmoothStep, lerp]
      rw [show (0.1 : ℚ) = 1 / 10 by norm_num]
      ring
    rw [h, ih, pow_succ]
    ring

/-- C4 counterexample: with target m = 0 and initial value s0 = 0 the
distance to the target does not strictly decrease on the first step, so the
claim as stated (quantified over every initial value) fails. -/
theorem moodSmoother_strict_decrease_counterexample :
    ¬(|moodSmoothIter 0 0 1 - 0| < |moodSmoothIter 0 0 0 - 0|) := by
  norm_num [moodSmoothIter, moodSmoothStep, lerp]

/-- C4 (amended): for a constant target m and any initial value s0 ≠ m, the
iterated smoothing sequence gets strictly closer to m at every step and
never crosses to the far side of m. -/
theorem moodSmoother_convergence (s0 m : ℚ) (h : s0 ≠ m) (n : ℕ) :
    |moodSmoothIter s0 m (n + 1) - m| < |moodSmoothIter s0 m n - m| ∧
    (s0 < m → moodSmoothIter s0 m n < m) ∧
    (m < s0 → m < moodSmoothIter s0 m n) := by
  have hd : (0 : ℚ) < |s0 - m| := abs_pos.mpr (sub_ne_zero.mpr h)
  have hp : (0 : ℚ) < (9 / 10 : ℚ) ^ n := by positivity
  have habs : ∀ k : ℕ, |moodSmoothIter s0 m k - m| = (9 / 10) ^ k * |s0 - m| := by
    intro k
    rw [moodSmoothIter_closed, abs_mul, abs_pow,
      abs_of_pos (show (0 : ℚ) < 9 / 10 by norm_num)]
  refine ⟨?_, ?_, ?_⟩
  · rw [habs, habs, pow_succ]
    nlinarith [mul_pos hp hd]
  · intro hlt
    have hcl := moodSmoothIter_closed s0 m n
    have hneg : (9 / 10 : ℚ) ^ n * (s0 - m) < 0 :=
      mul_neg_of_pos_of_neg hp (by linarith)
    linarith
  · intro hlt
    have hcl := moodSmoothIter_closed s0 m n
    have hpos : (0 : ℚ) < (9 / 10 : ℚ) ^ n * (s0 - m) :=
      mul_pos hp (by linarith)
    linarith

/-- C4 witness: from s0 = 0 toward m = 1 the first step strictly shrinks the
distance and the value stays below the target. -/
theorem moodSmoother_convergence_witness :
    (0 : ℚ) ≠ 1 ∧
    (|moodSmoothIter 0 1 (0 + 1) - 1| < |moodSmoothIter 0 1 0 - 1| ∧
      ((0 : ℚ) < 1 → moodSmoothIter 0 1 0 < 1) ∧
      ((1 : ℚ) < 0 → 1 < moodSmoothIter 0 1 0)) :=
  ⟨by norm_num, moodSmoother_convergence 0 1 (by norm_num) 0⟩

/-! ### Particle subsystem (treeSketch.ts lines 17-66, 378-465) -/

/-- Flower style tags from src/types: peach | sakura | delonix. -/
inductive FlowerStyle where
  | peach
  | sakura
  | delonix
deriving DecidableEq

/-- RGBA color with rational channels. -/
structure ColorQ where
  r : ℚ
  g : ℚ
  b : ℚ
  a : ℚ
deriving DecidableEq

/-- COL_LEAF_TENDER, treeSketch.ts line 81. -/
def COL_LEAF_TENDER : ColorQ := ⟨120, 210, 100, 230⟩

/-- COL_FLOWER_PINK, treeSketch.ts line 82. -/
def COL_FLOWER_PINK : ColorQ := ⟨255, 140, 170, 240⟩

/-- 2D vector with rational components. -/
structure Vec2 where
  x : ℚ
  y : ℚ
deriving DecidableEq

/-- The particle type tag, treeSketch.ts line 27. -/
inductive ParticleType where
  | leaf
  | flower
deriving DecidableEq

/-- Particle record, treeSketch.ts lines 18-45. -/
structure Particle where
  pos : Vec2
  vel : Vec2
  acc : Vec2
  color : ColorQ
  size : ℚ
  life : ℚ
  type : ParticleType
  isGrounded : Bool
  groundY : ℚ
  angle : ℚ
  angleVel : ℚ
  flip : ℚ
  flipSpeed : ℚ
  swayPhase : ℚ
  swayFreq : ℚ
  swayAmp : ℚ
deriving DecidableEq

/-- MAX_PARTICLES, treeSketch.ts line 66. -/
def MAX_PARTICLES : ℕ := 300

/-- Ambient per-frame context supplied to the sketch by p5: coherent noise,
trigonometric functions, the frame counter and the canvas size. -/
structure Env where
  noise : ℚ → ℚ → ℚ → ℚ
  sin : ℚ → ℚ
  cos : ℚ → ℚ
  frameCount : ℚ
  width : ℚ
  height : ℚ

/-- The falling-physics part of one particle update, treeSketch.ts lines
415-428: gravity, wind, turbulence and sway accumulate into acc, velocity
integrates with drag 0.94, position integrates, spin and tumble advance.
The ground test of lines 430-434 is applied afterwards in stepParticle. -/
def fallStep (env : Env) (windForce : ℚ) (p : Particle) : Particle :=
  let turbulence := env.noise (p.pos.x * 0.01) (p.pos.y * 0.01) (env.frameCount * 0.02) - 0.5
  let windEffect := windForce * 0.25
  let swayForce := env.sin (env.frameCount * p.swayFreq + p.swayPhase) * p.swayAmp
  let acc : Vec2 := ⟨0 + windEffect + turbulence * 0.15 + swayForce, 0.1⟩
  let vel : Vec2 := ⟨(p.vel.x + acc.x) * 0.94, (p.vel.y + acc.y) * 0.94⟩
  let pos : Vec2 := ⟨p.pos.x + vel.x, p.pos.y + vel.y⟩
  { p with
    acc := acc
    vel := vel
    pos := pos
    angle := p.angle + p.angleVel
    flip := p.flip + p.flipSpeed }

/-- One particle update, treeSketch.ts lines 414-435: grounded particles
skip all physics; a falling one advances and, when its new y has reached
its groundY, grounds: isGrounded set, y snapped to groundY, velocity
zeroed. -/
def stepParticle (env : Env) (windForce : ℚ) (p : Particle) : Particle :=
  if p.isGrounded then p
  else
    let q := fallStep env windForce p
    if q.pos.y ≥ p.groundY then
      { q with isGrounded := true, pos := ⟨q.pos.x, p.groundY⟩, vel := ⟨0, 0⟩ }
    else q

/-- Iterate particle updates over a list of per-frame (context, wind)
pairs. -/
def stepMany (frames : List (Env × ℚ)) (p : Particle) : Particle :=
  frames.foldl (fun q fr => stepParticle fr.1 fr.2 q) p

/-- updateParticles, treeSketch.ts lines 406-465, as a particle-list
transformer: first trim to the last MAX_PARTICLES entries (splice(0,
length - MAX_PARTICLES)), then step every particle, then remove those whose
x has left the canvas by more than 100 px.  The style argument only affects
rendering (renderParticleOps below), never the particle list. -/
def updateParticles (env : Env) (windForce : ℚ) (style : FlowerStyle)
    (particles : List Particle) : List Particle :=
  let trimmed := if particles.length > MAX_PARTICLES
    then particles.drop (particles.length - MAX_PARTICLES) else particles
  (trimmed.map (stepParticle env windForce)).filter
    (fun q => decide (¬(q.pos.x < -100 ∨ q.pos.x > env.width + 100)))

/-- The random draws consumed by one spawnFallingParticle call,
treeSketch.ts lines 381-402, already evaluated to their values. -/
structure SpawnDraws where
  vxJitter : ℚ
  vy : ℚ
  groundDrop : ℚ
  flowerDraw : ℚ
  size : ℚ
  angle : ℚ
  angleVel : ℚ
  flip : ℚ
  flipSpeed : ℚ
  swayPhase : ℚ
  swayFreq : ℚ
  swayAmp : ℚ
deriving DecidableEq

/-- spawnFallingParticle, treeSketch.ts lines 378-404: positions more than
50 px outside the canvas horizontally, or below the canvas bottom, are
rejected; otherwise exactly one particle is appended, built from the draws,
the current wind and the canvas size. -/
def spawnFallingParticle (env : Env) (currentWind : ℚ) (r : SpawnDraws)
    (x y : ℚ) (particles : List Particle) : List Particle :=
  if x < -50 ∨ x > env.width + 50 ∨ y > env.height then particles
  else
    let isFlower := r.flowerDraw > 0.5
    particles ++ [{
      pos := ⟨x, y⟩
      vel := ⟨r.vxJitter + currentWind * 2.5, r.vy⟩
      acc := ⟨0, 0⟩
      color := if isFlower then COL_FLOWER_PINK else COL_LEAF_TENDER
      type := if isFlower then ParticleType.flower else ParticleType.leaf
      size := r.size
      life := 255
      isGrounded := false
      groundY := env.height - r.groundDrop
      angle := r.angle
      angleVel := r.angleVel
      flip := r.flip
      flipSpeed := r.flipSpeed
      swayPhase := r.swayPhase
      swayFreq := r.swayFreq
      swayAmp := r.swayAmp }]

/-! ### Flower style catalog (treeSketch.ts lines 136-223) -/

/-- Primitive draw operations issued against the p5 surface.  Each petal
constructor stands for one whole petal outline: the ellipse call (peach) or
the beginShape..endShape block (sakura, delonix) of one loop iteration of
drawFlowerShape, carrying the geometry parameters computed there. -/
inductive DrawOp where
  | pushOp
  | popOp
  | translateOp (x y : ℚ)
  | rotateOp (a : ℚ)
  | scaleOp (sx sy : ℚ)
  | noStrokeOp
  | fillOp (c : ColorQ)
  | ellipseOp (x y w h : ℚ)
  | circleOp (x y d : ℚ)
  | petalRound (cx cy w h : ℚ)
  | petalPointed (pLen pWidth : ℚ)
  | petalSpoon (totalLen headWidth headHeight stemLen stemHalfWidth : ℚ)
deriving DecidableEq

/-- drawFlowerShape, treeSketch.ts lines 137-223, as the list of draw
operations it issues.  twoPi stands for p.TWO_PI. -/
def drawFlowerShape (twoPi : ℚ) (style : FlowerStyle) (size : ℚ) : List DrawOp :=
  DrawOp.noStrokeOp ::
  match style with
  | .sakura =>
    (DrawOp.fillOp COL_FLOWER_PINK ::
      (List.range 5).flatMap (fun i =>
        [DrawOp.pushOp, DrawOp.rotateOp (twoPi / 5 * (i : ℚ)),
         DrawOp.petalPointed (size * 0.85) (size * 0.45), DrawOp.popOp])) ++
    [DrawOp.fillOp ⟨255, 255, 255, 220⟩, DrawOp.circleOp 0 0 (size * 0.2)]
  | .delonix =>
    (DrawOp.fillOp COL_FLOWER_PINK ::
      (List.range 5).flatMap (fun i =>
        let totalLen := size * 0.95
        let headWidth := size * 0.35
        let headHeight := size * 0.4
        let stemLen := totalLen - headHeight * 0.8
        let stemHalfWidth := size * 0.04
        [DrawOp.pushOp, DrawOp.rotateOp (twoPi / 5 * (i : ℚ)),
         DrawOp.petalSpoon totalLen headWidth headHeight stemLen stemHalfWidth,
         DrawOp.popOp])) ++
    [DrawOp.fillOp ⟨255, 200, 100, 150⟩, DrawOp.circleOp 0 0 (size * 0.15)]
  | .peach =>
    (DrawOp.fillOp COL_FLOWER_PINK ::
      (List.range 5).flatMap (fun _ =>
        [DrawOp.rotateOp (twoPi / 5),
         DrawOp.petalRound 0 (size * 0.4) (size * 0.5) (size * 0.6)])) ++
    [DrawOp.fillOp ⟨255, 220, 100, 255⟩, DrawOp.circleOp 0 0 (size * 0.3)]

/-- Whether a draw op is one petal outline. -/
def DrawOp.isPetal : DrawOp → Bool
  | .petalRound _ _ _ _ => true
  | .petalPointed _ _ => true
  | .petalSpoon _ _ _ _ _ => true
  | _ => false

/-- Whether a draw op is the flower's center accent (the circle call). -/
def DrawOp.isCenterAccent : DrawOp → Bool
  | .circleOp _ _ _ => true
  | _ => false

/-- The accumulated rotation at which each petal op is issued, obtained by
interpreting rotate and the push/pop matrix stack. -/
def petalAnglesAux : List DrawOp → ℚ → List ℚ → List ℚ
  | [], _, _ => []
  | op :: ops, cur, stk =>
    match op with
    | .pushOp => petalAnglesAux ops cur (cur :: stk)
    | .popOp =>
      match stk with
      | [] => petalAnglesAux ops cur []
      | c :: s => petalAnglesAux ops c s
    | .rotateOp a => petalAnglesAux ops (cur + a) stk
    | .petalRound _ _ _ _ => cur :: petalAnglesAux ops cur stk
    | .petalPointed _ _ => cur :: petalAnglesAux ops cur stk
    | .petalSpoon _ _ _ _ _ => cur :: petalAnglesAux ops cur stk
    | _ => petalAnglesAux ops cur stk

/-- Petal angles of an op list, starting from rotation 0. -/
def petalAngles (ops : List DrawOp) : List ℚ := petalAnglesAux ops 0 []

/-- Rendering of one particle inside updateParticles, treeSketch.ts lines
437-459: transform by position, spin and tumble flattening, then either the
flower shape in the style supplied to this frame's call, or a leaf
ellipse. -/
def renderParticleOps (env : Env) (twoPi : ℚ) (currentStyle : FlowerStyle)
    (part : Particle) : List DrawOp :=
  let tumbleScale := env.cos part.flip
  let renderScale : ℚ := if part.isGrounded then 0.2 else |tumbleScale|
  let c : ColorQ := { part.color with a := if part.isGrounded then 200 else 255 }
  [DrawOp.pushOp, DrawOp.translateOp part.pos.x part.pos.y, DrawOp.rotateOp part.angle,
   DrawOp.scaleOp 1 (max 0.1 renderScale)] ++
  (if part.type = ParticleType.flower then
    drawFlowerShape twoPi currentStyle part.size
  else
    [DrawOp.fillOp c, DrawOp.noStrokeOp, DrawOp.ellipseOp 0 0 part.size (part.size * 0.7)]) ++
  [DrawOp.popOp]

/-! ### Particle store theorems -/

lemma stepParticle_grounded (env : Env) (w : ℚ) (p : Particle)
    (h : p.isGrounded = true) : stepParticle env w p = p := by
  simp [stepParticle, h]

lemma stepMany_grounded (frames : List (Env × ℚ)) (q : Particle)
    (h : q.isGrounded = true) : stepMany frames q = q := by
  induction frames with
  | nil => rfl
  | cons fr frames ih =>
    show stepMany frames (stepParticle fr.1 fr.2 q) = q
    rw [stepParticle_grounded fr.1 fr.2 q h]
    exact ih

/-- C2: when more than MAX_PARTICLES (300) particles are in the store, one
updateParticles pass keeps exactly the 300 most recently spawned particles,
each advanced one step and in spawn order, provided none of them leaves the
horizontal canvas bounds during the step; in particular exactly 300
particles remain. -/
theorem particle_capacity_fifo (env : Env) (windForce : ℚ) (style : FlowerStyle)
    (ps : List Particle) (hN : MAX_PARTICLES < ps.length)
    (hin : ∀ q ∈ (ps.drop (ps.length - MAX_PARTICLES)).map (stepParticle env windForce),
      -100 ≤ q.pos.x ∧ q.pos.x ≤ env.width + 100) :
    updateParticles env windForce style ps =
      (ps.drop (ps.length - MAX_PARTICLES)).map (stepParticle env windForce) ∧
    (updateParticles env windForce style ps).length = MAX_PARTICLES := by
  have hupd : updateParticles env windForce style ps =
      (ps.drop (ps.length - MAX_PARTICLES)).map (stepParticle env windForce) := by
    unfold updateParticles
    rw [if_pos hN]
    refine List.filter_eq_self.mpr ?_
    intro q hq
    rcases hin q hq with ⟨h1, h2⟩
    simp only [decide_eq_true_eq, not_or, not_lt]
    exact ⟨h1, h2⟩
  refine ⟨hupd, ?_⟩
  rw [hupd, List.length_map, List.length_drop]
  omega

/-- A grounded resting particle used as a concrete input. -/
def sampleGrounded : Particle :=
  { pos := ⟨0, 50⟩, vel := ⟨0, 0⟩, acc := ⟨0, 0⟩, color := COL_LEAF_TENDER, size := 10,
    life := 255, type := ParticleType.leaf, isGrounded := true, groundY := 50,
    angle := 0, angleVel := 0, flip := 0, flipSpeed := 0,
    swayPhase := 0, swayFreq := 0, swayAmp := 0 }

/-- A falling particle just above its ground line. -/
def sampleFalling : Particle :=
  { pos := ⟨0, 100⟩, vel := ⟨0, 10⟩, acc := ⟨0, 0⟩, color := COL_FLOWER_PINK, size := 10,
    life := 255, type := ParticleType.flower, isGrounded := false, groundY := 50,
    angle := 0, angleVel := 0, flip := 0, flipSpeed := 0,
    swayPhase := 0, swayFreq := 0, swayAmp := 0 }

/-- A concrete frame context: zero noise and trig, frame 0, 800x600. -/
def sampleEnv : Env :=
  { noise := fun _ _ _ => 0, sin := fun _ => 0, cos := fun _ => 0,
    frameCount := 0, width := 800, height := 600 }

/-- C2 witness: 301 grounded in-bounds particles trim to exactly 300. -/
theorem particle_capacity_fifo_witness :
    (MAX_PARTICLES < (List.replicate 301 sampleGrounded).length ∧
      (∀ q ∈ ((List.replicate 301 sampleGrounded).drop
          ((List.replicate 301 sampleGrounded).length - MAX_PARTICLES)).map
          (stepParticle sampleEnv 0),
        -100 ≤ q.pos.x ∧ q.pos.x ≤ sampleEnv.width + 100)) ∧
    (updateParticles sampleEnv 0 FlowerStyle.peach (List.replicate 301 sampleGrounded) =
      ((List.replicate 301 sampleGrounded).drop
        ((List.replicate 301 sampleGrounded).length - MAX_PARTICLES)).map
        (stepParticle sampleEnv 0) ∧
      (updateParticles sampleEnv 0 FlowerStyle.peach
        (List.replicate 301 sampleGrounded)).length = MAX_PARTICLES) := by
  have hlen : MAX_PARTICLES < (List.replicate 301 sampleGrounded).length := by
    rw [List.length_replicate]
    norm_num [MAX_PARTICLES]
  have hstep : stepParticle sampleEnv 0 sampleGrounded = sampleGrounded :=
    stepParticle_grounded sampleEnv 0 sampleGrounded rfl
  have hin : ∀ q ∈ ((List.replicate 301 sampleGrounded).drop
      ((List.replicate 301 sampleGrounded).length - MAX_PARTICLES)).map
      (stepParticle sampleEnv 0),
      -100 ≤ q.pos.x ∧ q.pos.x ≤ sampleEnv.width + 100 := by
    intro q hq
    rcases List.mem_map.mp hq with ⟨a, ha, rfl⟩
    have ha2 : a ∈ List.replicate 301 sampleGrounded := List.mem_of_mem_drop ha
    rw [List.eq_of_mem_replicate ha2, hstep]
    norm_num [sampleGrounded, sampleEnv]
  exact ⟨⟨hlen, hin⟩,
    particle_capacity_fifo sampleEnv 0 FlowerStyle.peach
      (List.replicate 301 sampleGrounded) hlen hin⟩

/-- C5: the first update that advances a falling particle to or past its
assigned groundY grounds it exactly once, snapping y to groundY and zeroing
velocity, and every subsequent update leaves y at groundY, velocity zero
and the grounded flag set. -/
theorem particle_grounding (env : Env) (windForce : ℚ) (p : Particle)
    (h1 : p.isGrounded = false)
    (h2 : p.groundY ≤ (fallStep env windForce p).pos.y) :
    (stepParticle env windForce p).isGrounded = true ∧
    (stepParticle env windForce p).pos.y = p.groundY ∧
    (stepParticle env windForce p).vel = ⟨0, 0⟩ ∧
    ∀ frames : List (Env × ℚ),
      (stepMany frames (stepParticle env windForce p)).isGrounded = true ∧
      (stepMany frames (stepParticle env windForce p)).pos.y = p.groundY ∧
      (stepMany frames (stepParticle env windForce p)).vel = ⟨0, 0⟩ := by
  have hq : (stepParticle env windForce p).isGrounded = true ∧
      (stepParticle env windForce p).pos.y = p.groundY ∧
      (stepParticle env windForce p).vel = ⟨0, 0⟩ := by
    refine ⟨?_, ?_, ?_⟩ <;> simp [stepParticle, h1, h2]
  refine ⟨hq.1, hq.2.1, hq.2.2, ?_⟩
  intro frames
  rw [stepMany_grounded frames _ hq.1]
  exact hq

/-- C5 witness: a concrete particle at y = 100 with ground at 50 grounds on
this update and stays at rest afterwards. -/
theorem particle_grounding_witness :
    (sampleFalling.isGrounded = false ∧
      sampleFalling.groundY ≤ (fallStep sampleEnv 0 sampleFalling).pos.y) ∧
    ((stepParticle sampleEnv 0 sampleFalling).isGrounded = true ∧
      (stepParticle sampleEnv 0 sampleFalling).pos.y = sampleFalling.groundY ∧
      (stepParticle sampleEnv 0 sampleFalling).vel = ⟨0, 0⟩ ∧
      ∀ frames : List (Env × ℚ),
        (stepMany frames (stepParticle sampleEnv 0 sampleFalling)).isGrounded = true ∧
        (stepMany frames (stepParticle sampleEnv 0 sampleFalling)).pos.y =
          sampleFalling.groundY ∧
        (stepMany frames (stepParticle sampleEnv 0 sampleFalling)).vel = ⟨0, 0⟩) := by
  have hfall : sampleFalling.groundY ≤ (fallStep sampleEnv 0 sampleFalling).pos.y := by
    norm_num [fallStep, sampleFalling, sampleEnv]
  exact ⟨⟨rfl, hfall⟩, particle_grounding sampleEnv 0 sampleFalling rfl hfall⟩

/-- C10: spawnFallingParticle leaves the particle list unchanged exactly
when the position is more than 50 px outside the canvas horizontally or
below the canvas bottom; for any other position it appends exactly one new
particle. -/
theorem spawn_offscreen_rejected (env : Env) (currentWind : ℚ) (r : SpawnDraws)
    (x y : ℚ) (ps : List Particle) :
    (x < -50 ∨ x > env.width + 50 ∨ y > env.height →
      spawnFallingParticle env currentWind r x y ps = ps) ∧
    (¬(x < -50 ∨ x > env.width + 50 ∨ y > env.height) →
      ∃ q, spawnFallingParticle env currentWind r x y ps = ps ++ [q] ∧
        (spawnFallingParticle env currentWind r x y ps).length = ps.length + 1) := by
  constructor
  · intro h
    simp [spawnFallingParticle, h]
  · intro h
    simp only [spawnFallingParticle, if_neg h]
    exact ⟨_, rfl, by simp⟩

/-- Concrete spawn draws (all jitters zero; flowerDraw 0 gives a leaf). -/
def sampleDraws : SpawnDraws :=
  { vxJitter := 0, vy := 2, groundDrop := 0, flowerDraw := 0, size := 10,
    angle := 0, angleVel := 0, flip := 0, flipSpeed := 0,
    swayPhase := 0, swayFreq := 0, swayAmp := 0 }

/-- C10 witness: an on-screen position (100, 50) on an 800x600 canvas
appends exactly one particle to the empty store. -/
theorem spawn_offscreen_rejected_witness :
    ¬((100 : ℚ) < -50 ∨ (100 : ℚ) > sampleEnv.width + 50 ∨ (50 : ℚ) > sampleEnv.height) ∧
    ∃ q, spawnFallingParticle sampleEnv 0 sampleDraws 100 50 ([] : List Particle) =
        ([] : List Particle) ++ [q] ∧
      (spawnFallingParticle sampleEnv 0 sampleDraws 100 50 ([] : List Particle)).length =
        ([] : List Particle).length + 1 := by
  have h : ¬((100 : ℚ) < -50 ∨ (100 : ℚ) > sampleEnv.width + 50 ∨
      (50 : ℚ) > sampleEnv.height) := by
    norm_num [sampleEnv]
  exact ⟨h, (spawn_offscreen_rejected sampleEnv 0 sampleDraws 100 50 ([] : List Particle)).2 h⟩

/-! ### Flower geometry theorems -/

lemma range_five : List.range 5 = [0, 1, 2, 3, 4] := rfl

/-- C6: for each flower style and any positive size, drawFlowerShape issues
exactly 5 petal draws and exactly one center accent, with the petal angles
advancing by equal increments of twoPi / 5. -/
theorem drawFlowerShape_petals (twoPi size : ℚ) (style : FlowerStyle) (hs : 0 < size) :
    ((drawFlowerShape twoPi style size).filter DrawOp.isPetal).length = 5 ∧
    ((drawFlowerShape twoPi style size).filter DrawOp.isCenterAccent).length = 1 ∧
    ∃ a0, petalAngles (drawFlowerShape twoPi style size) =
      [a0, a0 + twoPi / 5, a0 + 2 * (twoPi / 5),
        a0 + 3 * (twoPi / 5), a0 + 4 * (twoPi / 5)] := by
  cases style with
  | peach =>
    refine ⟨?_, ?_, twoPi / 5, ?_⟩
    · simp [drawFlowerShape, range_five, DrawOp.isPetal, DrawOp.isCenterAccent]
    · simp [drawFlowerShape, range_five, DrawOp.isPetal, DrawOp.isCenterAccent]
    · simp [drawFlowerShape, range_five, petalAngles, petalAnglesAux]
      ring_nf
      simp
  | sakura =>
    refine ⟨?_, ?_, 0, ?_⟩
    · simp [drawFlowerShape, range_five, DrawOp.isPetal, DrawOp.isCenterAccent]
    · simp [drawFlowerShape, range_five, DrawOp.isPetal, DrawOp.isCenterAccent]
    · simp [drawFlowerShape, range_five, petalAngles, petalAnglesAux]
      ring_nf
      simp
  | delonix =>
    refine ⟨?_, ?_, 0, ?_⟩
    · simp [drawFlowerShape, range_five, DrawOp.isPetal, DrawOp.isCenterAccent]
    · simp [drawFlowerShape, range_five, DrawOp.isPetal, DrawOp.isCenterAccent]
    · simp [drawFlowerShape, range_five, petalAngles, petalAnglesAux]
      ring_nf
      simp

/-- C6 witness: the peach style at size 14 (with twoPi stood in by 6). -/
theorem drawFlowerShape_petals_witness :
    (0 : ℚ) < 14 ∧
    (((drawFlowerShape 6 FlowerStyle.peach 14).filter DrawOp.isPetal).length = 5 ∧
      ((drawFlowerShape 6 FlowerStyle.peach 14).filter DrawOp.isCenterAccent).length = 1 ∧
      ∃ a0, petalAngles (drawFlowerShape 6 FlowerStyle.peach 14) =
        [a0, a0 + 6 / 5, a0 + 2 * (6 / 5), a0 + 3 * (6 / 5), a0 + 4 * (6 / 5)]) :=
  ⟨by norm_num, drawFlowerShape_petals 6 14 FlowerStyle.peach (by norm_num)⟩

lemma flower_shapes_distinct (twoPi size : ℚ) (s1 s2 : FlowerStyle) (hne : s1 ≠ s2) :
    drawFlowerShape twoPi s1 size ≠ drawFlowerShape twoPi s2 size := by
  cases s1 <;> cases s2 <;> simp_all [drawFlowerShape, range_five]

/-- C7: a particle stores only its type tag, not a style or geometry; the
geometry drawn for a flower particle is the flower shape of the style tag
supplied to the frame's update-and-draw call, applied to the particle's
size, and two different style tags always yield different renderings of the
same in-flight particle. -/
theorem flower_particles_restyle (env : Env) (twoPi : ℚ) (part : Particle)
    (hf : part.type = ParticleType.flower) (hs : 0 < part.size) :
    (∀ s, renderParticleOps env twoPi s part =
      [DrawOp.pushOp, DrawOp.translateOp part.pos.x part.pos.y, DrawOp.rotateOp part.angle,
       DrawOp.scaleOp 1 (max 0.1 (if part.isGrounded then 0.2 else |env.cos part.flip|))] ++
      drawFlowerShape twoPi s part.size ++ [DrawOp.popOp]) ∧
    ∀ s1 s2, s1 ≠ s2 →
      renderParticleOps env twoPi s1 part ≠ renderParticleOps env twoPi s2 part := by
  have hrender : ∀ s, renderParticleOps env twoPi s part =
      [DrawOp.pushOp, DrawOp.translateOp part.pos.x part.pos.y, DrawOp.rotateOp part.angle,
       DrawOp.scaleOp 1 (max 0.1 (if part.isGrounded then 0.2 else |env.cos part.flip|))] ++
      drawFlowerShape twoPi s part.size ++ [DrawOp.popOp] := by
    intro s
    simp [renderParticleOps, hf]
  refine ⟨hrender, ?_⟩
  intro s1 s2 hne hcontra
  rw [hrender s1, hrender s2] at hcontra
  exact flower_shapes_distinct twoPi part.size s1 s2 hne
    (List.append_cancel_left (List.append_cancel_right hcontra))

/-- C7 witness: the concrete flower particle sampleFalling renders via the
frame's style and renders differently under any two distinct styles. -/
theorem flower_particles_restyle_witness :
    (sampleFalling.type = ParticleType.flower ∧ (0 : ℚ) < sampleFalling.size) ∧
    ((∀ s, renderParticleOps sampleEnv 6 s sampleFalling =
      [DrawOp.pushOp, DrawOp.translateOp sampleFalling.pos.x sampleFalling.pos.y,
       DrawOp.rotateOp sampleFalling.angle,
       DrawOp.scaleOp 1 (max 0.1 (if sampleFalling.isGrounded then 0.2
         else |sampleEnv.cos sampleFalling.flip|))] ++
      drawFlowerShape 6 s sampleFalling.size ++ [DrawOp.popOp]) ∧
    ∀ s1 s2, s1 ≠ s2 →
      renderParticleOps sampleEnv 6 s1 sampleFalling ≠
        renderParticleOps sampleEnv 6 s2 sampleFalling) :=
  ⟨⟨rfl, by norm_num [sampleFalling]⟩,
    flower_particles_restyle sampleEnv 6 sampleFalling rfl (by norm_num [sampleFalling])⟩

/-! ### Skeleton builder (treeSketch.ts lines 47-59, 93-134) -/

/-- MAX_DEPTH, treeSketch.ts line 65. -/
def MAX_DEPTH : ℕ := 9

/-- Branch descriptor, treeSketch.ts lines 48-59. -/
inductive Branch where
  | mk (len thick : ℚ) (depth : ℕ) (angleOffset : ℚ) (children : List Branch)
       (noiseThreshold : ℚ) (hasFlower : Bool) (lenMult : ℚ) : Branch

def Branch.len : Branch → ℚ
  | .mk l _ _ _ _ _ _ _ => l

def Branch.thick : Branch → ℚ
  | .mk _ t _ _ _ _ _ _ => t

def Branch.depth : Branch → ℕ
  | .mk _ _ d _ _ _ _ _ => d

def Branch.angleOffset : Branch → ℚ
  | .mk _ _ _ a _ _ _ _ => a

def Branch.children : Branch → List Branch
  | .mk _ _ _ _ cs _ _ _ => cs

def Branch.lenMult : Branch → ℚ
  | .mk _ _ _ _ _ _ _ lm => lm

/-- child.angleOffset = angle, treeSketch.ts line 122 (child.thick is
already 0 from construction, line 123). -/
def Branch.withAngle : Branch → ℚ → Branch
  | .mk l t d _ cs n f lm, a => .mk l t d a cs n f lm

/-- rootBranch.len / rootBranch.thick assignment, lines 131-133. -/
def Branch.withRootDims : Branch → ℚ → ℚ → Branch
  | .mk _ _ d a cs n f lm, l, t => .mk l t d a cs n f lm

/-- p.random(a, b) realised from a stream u of unit draws in [0, 1]: the
i-th call returns a + (b - a) * u i. -/
def rand (u : ℕ → ℚ) (i : ℕ) (a b : ℚ) : ℚ := a + (b - a) * u i

/-- createBranch, treeSketch.ts lines 100-128.  Each node consumes three
unit draws (noiseThreshold, hasFlower, lenMult); below the depth cap it
then builds two children, the i-th child followed by one draw jittering its
angle around the symmetric base offset map(i, 0, 1, -PI/5, PI/5).  ctr is
the position in the random stream and is returned threaded; piV stands for
p.PI. -/
def createBranch (u : ℕ → ℚ) (piV : ℚ) (depth ctr : ℕ) : Branch × ℕ :=
  let noiseThreshold := rand u ctr 0.05 0.95
  let flowerDraw := rand u (ctr + 1) 0 1
  let lenMult := 0.72 + rand u (ctr + 2) (-0.08) 0.08
  if h : depth < MAX_DEPTH then
    let baseAngle := piV / 5
    let c0 := createBranch u piV (depth + 1) (ctr + 3)
    let a0 := -baseAngle + rand u c0.2 (-0.15) 0.15
    let c1 := createBranch u piV (depth + 1) (c0.2 + 1)
    let a1 := baseAngle + rand u c1.2 (-0.15) 0.15
    (Branch.mk 0 0 depth 0 [c0.1.withAngle a0, c1.1.withAngle a1]
      noiseThreshold (decide (flowerDraw > 0.5)) lenMult, c1.2 + 2)
  else
    (Branch.mk 0 0 depth 0 [] noiseThreshold (decide (flowerDraw > 0.5)) lenMult, ctr + 3)
termination_by MAX_DEPTH - depth
decreasing_by
  all_goals omega

/-- buildTreeSkeleton, treeSketch.ts lines 93-134: build the recursive
skeleton from depth 0 and then set the root's trunk length and thickness
from the canvas size (with the mobile split at width 600). -/
def buildTreeSkeleton (u : ℕ → ℚ) (piV w h : ℚ) : Branch :=
  let trunkLenRatio : ℚ := if w < 600 then 0.22 else 0.26
  let trunkLen := h * trunkLenRatio
  let trunkThick : ℚ := if w < 600 then 18 else 28
  ((createBranch u piV 0 0).1).withRootDims trunkLen trunkThick

mutual
/-- Every node of a branch tree: the branch itself and all descendants. -/
def allNodes : Branch → List Branch
  | .mk l t d a cs n f lm => Branch.mk l t d a cs n f lm :: allNodesList cs

/-- All nodes of a forest. -/
def allNodesList : List Branch → List Branch
  | [] => []
  | c :: cs => allNodes c ++ allNodesList cs
end

/-! ### Skeleton theorems -/

lemma allNodes_cons (l t : ℚ) (d : ℕ) (a : ℚ) (cs : List Branch)
    (nt : ℚ) (hf : Bool) (lm : ℚ) :
    allNodes (Branch.mk l t d a cs nt hf lm) =
      Branch.mk l t d a cs nt hf lm :: allNodesList cs := rfl

lemma allNodes_withAngle (b : Branch) (a : ℚ) :
    allNodes (b.withAngle a) = b.withAngle a :: allNodesList b.children := by
  cases b
  rfl

lemma allNodes_withAngle_length (b : Branch) (a : ℚ) :
    (allNodes (b.withAngle a)).length = (allNodes b).length := by
  cases b
  rfl

lemma allNodes_withRootDims (b : Branch) (l t : ℚ) :
    allNodes (b.withRootDims l t) = b.withRootDims l t :: allNodesList b.children := by
  cases b
  rfl

lemma allNodes_withRootDims_length (b : Branch) (l t : ℚ) :
    (allNodes (b.withRootDims l t)).length = (allNodes b).length := by
  cases b
  rfl

lemma allNodes_head (b : Branch) : allNodes b = b :: allNodesList b.children := by
  cases b
  rfl

/-- The structural properties the spec asserts of every skeleton node. -/
def goodNode (q : Branch) : Prop :=
  q.depth ≤ MAX_DEPTH ∧ (q.depth < MAX_DEPTH → q.children.length = 2) ∧
  (q.depth = MAX_DEPTH → q.children = []) ∧
  0.64 ≤ q.lenMult ∧ q.lenMult ≤ 0.80

lemma goodNode_withAngle (b : Branch) (a : ℚ) (h : goodNode b) :
    goodNode (b.withAngle a) := by
  cases b
  exact h

lemma goodNode_withRootDims (b : Branch) (l t : ℚ) (h : goodNode b) :
    goodNode (b.withRootDims l t) := by
  cases b
  exact h

lemma lenMult_bounds (u : ℕ → ℚ) (hu : ∀ i, 0 ≤ u i ∧ u i ≤ 1) (i : ℕ) :
    0.64 ≤ 0.72 + rand u i (-0.08) 0.08 ∧ 0.72 + rand u i (-0.08) 0.08 ≤ 0.80 := by
  rcases hu i with ⟨h0, h1⟩
  unfold rand
  constructor <;> nlinarith

lemma createBranch_leaf (u : ℕ → ℚ) (piV : ℚ) (ctr : ℕ) :
    (createBranch u piV MAX_DEPTH ctr).1 =
      Branch.mk 0 0 MAX_DEPTH 0 [] (rand u ctr 0.05 0.95)
        (decide (rand u (ctr + 1) 0 1 > 0.5)) (0.72 + rand u (ctr + 2) (-0.08) 0.08) := by
  rw [createBranch]
  simp

lemma createBranch_node (u : ℕ → ℚ) (piV : ℚ) (depth ctr : ℕ) (hlt : depth < MAX_DEPTH) :
    (createBranch u piV depth ctr).1 =
      Branch.mk 0 0 depth 0
        [(createBranch u piV (depth + 1) (ctr + 3)).1.withAngle
            (-(piV / 5) + rand u (createBranch u piV (depth + 1) (ctr + 3)).2 (-0.15) 0.15),
         (createBranch u piV (depth + 1)
             ((createBranch u piV (depth + 1) (ctr + 3)).2 + 1)).1.withAngle
            (piV / 5 + rand u (createBranch u piV (depth + 1)
                ((createBranch u piV (depth + 1) (ctr + 3)).2 + 1)).2 (-0.15) 0.15)]
        (rand u ctr 0.05 0.95) (decide (rand u (ctr + 1) 0 1 > 0.5))
        (0.72 + rand u (ctr + 2) (-0.08) 0.08) := by
  conv_lhs => rw [createBranch]
  simp only [dif_pos hlt]

lemma createBranch_good (u : ℕ → ℚ) (piV : ℚ) (hu : ∀ i, 0 ≤ u i ∧ u i ≤ 1) :
    ∀ (n depth ctr : ℕ), MAX_DEPTH - depth = n → depth ≤ MAX_DEPTH →
      (∀ q ∈ allNodes (createBranch u piV depth ctr).1, goodNode q) ∧
      (allNodes (createBranch u piV depth ctr).1).length =
        2 ^ (MAX_DEPTH + 1 - depth) - 1 := by
  intro n
  induction n with
  | zero =>
    intro depth ctr hn hle
    have hd : depth = MAX_DEPTH := by omega
    subst hd
    rw [createBranch_leaf]
    constructor
    · intro q hq
      rw [allNodes_cons] at hq
      simp only [allNodesList, List.mem_singleton] at hq
      subst hq
      refine ⟨le_refl _, ?_, ?_, ?_, ?_⟩
      · intro hcon
        exact absurd hcon (lt_irrefl _)
      · intro _
        rfl
      · exact (lenMult_bounds u hu (ctr + 2)).1
      · exact (lenMult_bounds u hu (ctr + 2)).2
    · rw [allNodes_cons]
      simp [MAX_DEPTH, allNodesList]
  | succ k ih =>
    intro depth ctr hn hle
    have hlt : depth < MAX_DEPTH := by omega
    set c0 := createBranch u piV (depth + 1) (ctr + 3) with hc0
    set c1 := createBranch u piV (depth + 1) (c0.2 + 1) with hc1
    have ih0 := ih (depth + 1) (ctr + 3) (by omega) (by omega)
    have ih1 := ih (depth + 1) (c0.2 + 1) (by omega) (by omega)
    rw [createBranch_node u piV depth ctr hlt]
    rw [allNodes_cons]
    constructor
    · intro q hq
      simp only [allNodesList, List.append_nil, List.mem_cons, List.mem_append] at hq
      rcases hq with hq | hq | hq
      · subst hq
        refine ⟨le_of_lt hlt, ?_, ?_, ?_, ?_⟩
        · intro _
          rfl
        · intro hcon
          simp only [Branch.depth] at hcon
          omega
        · exact (lenMult_bounds u hu (ctr + 2)).1
        · exact (lenMult_bounds u hu (ctr + 2)).2
      · rw [allNodes_withAngle] at hq
        rcases List.mem_cons.mp hq with hq | hq
        · subst hq
          exact goodNode_withAngle _ _ (ih0.1 _ (by rw [allNodes_head]; exact List.mem_cons_self _ _))
        · refine ih0.1 q ?_
          rw [allNodes_head]
          exact List.mem_cons_of_mem _ hq
      · rw [allNodes_withAngle] at hq
        rcases List.mem_cons.mp hq with hq | hq
        · subst hq
          exact goodNode_withAngle _ _ (ih1.1 _ (by rw [allNodes_head]; exact List.mem_cons_self _ _))
        · refine ih1.1 q ?_
          rw [allNodes_head]
          exact List.mem_cons_of_mem _ hq
    · simp only [allNodesList, List.length_cons, List.length_append, List.length_nil]
      rw [allNodes_withAngle_length, allNodes_withAngle_length]
      rw [ih0.2, ih1.2]
      have he : MAX_DEPTH + 1 - (depth + 1) = MAX_DEPTH - depth := by omega
      have he2 : MAX_DEPTH + 1 - depth = (MAX_DEPTH - depth) + 1 := by omega
      rw [he, he2, pow_succ]
      have hp : 1 ≤ 2 ^ (MAX_DEPTH - depth) := Nat.one_le_two_pow
      omega

/-- C3: for every canvas size and every random stream with unit draws in
[0, 1], the built skeleton has every node at depth at most 9, exactly two
children at each depth below 9, no children at depth 9, a length multiplier
in [0.64, 0.80] at every node, and exactly 2 ^ 10 - 1 = 1023 nodes. -/
theorem skeleton_structure (u : ℕ → ℚ) (piV w h : ℚ)
    (hu : ∀ i, 0 ≤ u i ∧ u i ≤ 1) :
    (∀ q ∈ allNodes (buildTreeSkeleton u piV w h),
      q.depth ≤ 9 ∧ (q.depth < 9 → q.children.length = 2) ∧
      (q.depth = 9 → q.children = []) ∧
      0.64 ≤ q.lenMult ∧ q.lenMult ≤ 0.80) ∧
    (allNodes (buildTreeSkeleton u piV w h)).length = 1023 := by
  have hmain := createBranch_good u piV hu MAX_DEPTH 0 0 (by omega) (by omega)
  have hroot : buildTreeSkeleton u piV w h =
      ((createBranch u piV 0 0).1).withRootDims
        (h * if w < 600 then 0.22 else 0.26) (if w < 600 then 18 else 28) := rfl
  constructor
  · intro q hq
    rw [hroot, allNodes_withRootDims] at hq
    have hgood : goodNode q := by
      rcases List.mem_cons.mp hq with hq | hq
      · subst hq
        exact goodNode_withRootDims _ _ _
          (hmain.1 _ (by rw [allNodes_head]; exact List.mem_cons_self _ _))
      · refine hmain.1 q ?_
        rw [allNodes_head]
        exact List.mem_cons_of_mem _ hq
    exact hgood
  · rw [hroot, allNodes_withRootDims_length, hmain.2]
    rfl

/-- C3 witness: a constant stream of draws 1/2 on an 800x600 canvas. -/
theorem skeleton_structure_witness :
    (∀ i : ℕ, 0 ≤ ((fun _ => (1 : ℚ) / 2) i) ∧ ((fun _ => (1 : ℚ) / 2) i) ≤ 1) ∧
    ((∀ q ∈ allNodes (buildTreeSkeleton (fun _ => (1 : ℚ) / 2) 3 800 600),
      q.depth ≤ 9 ∧ (q.depth < 9 → q.children.length = 2) ∧
      (q.depth = 9 → q.children = []) ∧
      0.64 ≤ q.lenMult ∧ q.lenMult ≤ 0.80) ∧
    (allNodes (buildTreeSkeleton (fun _ => (1 : ℚ) / 2) 3 800 600)).length = 1023) :=
  ⟨fun _ => ⟨by norm_num, by norm_num⟩,
    skeleton_structure (fun _ => (1 : ℚ) / 2) 3 800 600 (fun _ => ⟨by norm_num, by norm_num⟩)⟩

end EmotionTree
